import Mathlib

set_option autoImplicit false
set_option maxHeartbeats 1000000

/-
Shallow embedding of pkg/compose/plugins.go: the provider plugin protocol.
The decoded stdout stream of the child process is modelled as a list of decode
outcomes (a successfully decoded JsonMessage, or a non-EOF decode error);
the end of the list is io.EOF.  Events written to the progress sink are
collected as a trace, and the join of the process-wait goroutine
(errgroup.Wait) is counted explicitly.
-/

/-- JsonMessage: the wire message decoded from the stdout stream of the plugin. -/
structure JsonMessage where
  type : String
  message : String
deriving Repr, DecidableEq

/-- Constant ErrorType from the source. -/
def ErrorType : String := "error"

/-- Constant InfoType from the source. -/
def InfoType : String := "info"

/-- Constant SetEnvType from the source. -/
def SetEnvType : String := "setenv"

/-- Modelled from the spec: the lifecycle events of the progress sink.  The
progress package is an external collaborator (not part of the verified
source); the spec lists the events `creating`, `created`, `removing`,
`removed` and `error`, each keyed by service name.  `errorMessage` is the
`error` lifecycle event, carrying a text, as produced by the source through
calls to progress.ErrorMessageEvent. -/
inductive Event where
  | creating (service : String)
  | removing (service : String)
  | created (service : String)
  | removed (service : String)
  | errorMessage (service : String) (text : String)
deriving Repr, DecidableEq

/-- Whether an event is the `error` lifecycle event (spec taxonomy). -/
def Event.isError : Event → Bool
  | .errorMessage _ _ => true
  | _ => false

/-- The free text carried by an event, when it carries one. -/
def Event.text : Event → Option String
  | .errorMessage _ t => some t
  | _ => none

/-- Go map assignment `m[k] = v` on an association-list model of a Go map:
replaces the value at an existing key, otherwise adds the binding. -/
def mapSet {α : Type} : List (String × α) → String → α → List (String × α)
  | [], k, v => [(k, v)]
  | (k0, v0) :: rest, k, v =>
    if k0 = k then (k0, v) :: rest else (k0, v0) :: mapSet rest k v

/-- Go map lookup `m[k]` on the association-list model. -/
def mapGet? {α : Type} : List (String × α) → String → Option α
  | [], _ => none
  | (k0, v0) :: rest, k => if k0 = k then some v0 else mapGet? rest k

/-- types.Mapping (map from string to string) from compose-go. -/
abbrev Mapping := List (String × String)

/-- types.MappingWithEquals (map from string to *string) from compose-go:
the service environment; a `none` value is a key with a nil pointer. -/
abbrev MappingWithEquals := List (String × Option String)

/-- Embeds strings.Cut from the Go standard library specialized to a
single-character separator (the source only ever uses "="): splits the
text around the first occurrence of sep; `none` when sep does not occur
(the Go found=false case, where Cut returns (s, "", false)). -/
def stringsCut (sep : Char) : List Char → Option (List Char × List Char)
  | [] => none
  | c :: cs =>
    if c = sep then some ([], cs)
    else
      match stringsCut sep cs with
      | none => none
      | some (k, v) => some (c :: k, v)

/-- strings.Cut on String values, via the underlying character list. -/
def cutString (sep : Char) (s : String) : Option (String × String) :=
  match stringsCut sep s.data with
  | none => none
  | some (k, v) => some (String.mk k, String.mk v)

/-- One item of the decoded stdout stream: either a decoded message or a
non-EOF decoder error (its Go error text); the end of the stream list is
io.EOF. -/
abbrev StreamItem := Except String JsonMessage

/-- Outcome of the decode loop in the source: either the loop broke at io.EOF
with the accumulated variables, or it returned early with an error text.
In both cases the events emitted by the loop are collected in order. -/
inductive LoopOutcome where
  | eof (vars : Mapping) (events : List Event)
  | fail (errText : String) (events : List Event)
deriving Repr, DecidableEq

/-- Adds an event emitted before the rest of the loop ran. -/
def LoopOutcome.prependEvent : LoopOutcome → Event → LoopOutcome
  | .eof vars evs, ev => .eof vars (ev :: evs)
  | .fail d evs, ev => .fail d (ev :: evs)

/-- The decode loop of the source (the for loop in executePlugin): decode one
message at a time; break at io.EOF; return early on a decode error, an
`error` message (after emitting an error event with the literal text
"error"), an unrecognized kind, or a `setenv` payload that strings.Cut
cannot split at "="; on `info` emit an event carrying the payload through
progress.ErrorMessageEvent and continue; on a well-formed `setenv` insert
the cut key and value into the variables map and continue. -/
def decodeLoop (svc : String) (vars : Mapping) : List StreamItem → LoopOutcome
  | [] => .eof vars []
  | .error d :: _ => .fail d []
  | .ok msg :: rest =>
    if msg.type = ErrorType then
      .fail msg.message [.errorMessage svc "error"]
    else if msg.type = InfoType then
      (decodeLoop svc vars rest).prependEvent (.errorMessage svc msg.message)
    else if msg.type = SetEnvType then
      match cutString '=' msg.message with
      | none => .fail ("invalid response from plugin: " ++ msg.message) []
      | some (k, v) => decodeLoop svc (mapSet vars k v) rest
    else
      .fail ("invalid response from plugin: " ++ msg.type) []

/-- Inputs of one executePlugin run that come from the outside world: the
possible failures of cmd.StdoutPipe and cmd.Start, the decoded stdout
stream, and the result of the process-wait (errgroup carrying cmd.Wait;
`none` is a zero exit status, `some e` a non-zero exit or wait error with
text e). -/
structure PluginExec where
  stdoutPipeErr : Option String
  startErr : Option String
  stream : List StreamItem
  waitErr : Option String
deriving Repr

/-- Result of executePlugin: the returned (Mapping, error) pair as an
Except (Go returns a nil map exactly on the error paths), the ordered
trace of events written to the progress sink, and how many times the
process-wait was joined (eg.Wait calls executed). -/
structure ExecOut where
  result : Except String Mapping
  events : List Event
  waitJoins : Nat
deriving Repr

/-- The switch on command in the source before the loop: the starting lifecycle
event and the action name, or `none` for an unsupported command. -/
def startEvent (cmd svc : String) : Option (Event × String) :=
  if cmd = "up" then some (.creating svc, "create")
  else if cmd = "down" then some (.removing svc, "remove")
  else none

/-- The switch on command in the source after a successful wait: the completion
lifecycle event. -/
def doneEvents (cmd svc : String) : List Event :=
  if cmd = "up" then [.created svc]
  else if cmd = "down" then [.removed svc]
  else []

/-- executePlugin from the source: fail if the stdout pipe or process
start fails; launch the process-wait; emit the starting event (or fail on
an unsupported command); run the decode loop; on early loop return,
return its error without joining the wait; after io.EOF join the wait
once, and either wrap a wait failure (emitting an error event) or emit
the completion event and return the accumulated variables. -/
def executePlugin (e : PluginExec) (cmd svc : String) : ExecOut :=
  match e.stdoutPipeErr with
  | some err => ⟨.error err, [], 0⟩
  | none =>
    match e.startErr with
    | some err => ⟨.error err, [], 0⟩
    | none =>
      match startEvent cmd svc with
      | none => ⟨.error ("unsupported plugin command: " ++ cmd), [], 0⟩
      | some (ev0, action) =>
        match decodeLoop svc [] e.stream with
        | .fail d evs => ⟨.error d, ev0 :: evs, 0⟩
        | .eof vars evs =>
          match e.waitErr with
          | some werr =>
            ⟨.error ("failed to " ++ action ++ " external service: " ++ werr),
             ev0 :: (evs ++ [.errorMessage svc werr]), 1⟩
          | none =>
            ⟨.ok vars, ev0 :: (evs ++ doneEvents cmd svc), 1⟩

/-- ServiceConfig: the slice of the compose-go service type the core reads and
writes — its name, the keys of its DependsOn map, and its environment. -/
structure ServiceConfig where
  name : String
  dependsOn : List String
  environment : MappingWithEquals
deriving Repr, DecidableEq

/-- Project: name and the Services map (service name to config). -/
structure Project where
  name : String
  services : List (String × ServiceConfig)
deriving Repr, DecidableEq

/-- The inner variable loop of runPlugin for one dependent service:
`s.Environment[prefix+key] = &val` for every key/val in the returned
variables, with prefix = strings.ToUpper(service.Name) + "_".  Go 1.22+
loop semantics give each iteration its own val, so the stored pointer
holds the value of that iteration. -/
def mergeEnv (pre : String) (vs : Mapping) (env : MappingWithEquals) :
    MappingWithEquals :=
  List.foldl (fun acc kv => mapSet acc (pre ++ kv.1) (some kv.2)) env vs

/-- The propagation loop of runPlugin over project.Services: services
whose DependsOn contains the name of the invoking service get the prefixed
variables added to their environment and are written back; the rest are
left as they are. -/
def propagateVariables (svcName : String) (vs : Mapping) (p : Project) :
    Project :=
  { p with
    services := p.services.map (fun ns =>
      if ns.2.dependsOn.contains svcName then
        (ns.1,
         { ns.2 with
           environment :=
             mergeEnv (svcName.toUpper ++ "_") vs ns.2.environment })
      else ns) }

/-- Result of runPlugin: the returned error (if any), the project after
the call (unchanged unless the propagation step ran), and the event trace
and wait-join count of the inner executePlugin run. -/
structure RunOut where
  err : Option String
  project : Project
  events : List Event
  waitJoins : Nat
deriving Repr

/-- runPlugin from the source: fail on plugin resolution
(getPluginBinaryPath) or gate check (checkPluginEnabledInDD) errors
without touching the project; run executePlugin; on its error return it
unchanged; on success run the propagation loop over the project. -/
def runPlugin (getPluginErr gateErr : Option String) (e : PluginExec)
    (p : Project) (svcName cmd : String) : RunOut :=
  match getPluginErr with
  | some err => ⟨some err, p, [], 0⟩
  | none =>
    match gateErr with
    | some err => ⟨some err, p, [], 0⟩
    | none =>
      match (executePlugin e cmd svcName).result with
      | .error err =>
        ⟨some err, p, (executePlugin e cmd svcName).events,
         (executePlugin e cmd svcName).waitJoins⟩
      | .ok vars =>
        ⟨none, propagateVariables svcName vars p,
         (executePlugin e cmd svcName).events,
         (executePlugin e cmd svcName).waitJoins⟩

/-- State of the decode loop variables after consuming a stream piece
without terminating: `some vars` when the loop would still be running
with accumulated vars, `none` when the piece makes the loop terminate
early. -/
def streamAccum (vars : Mapping) : List StreamItem → Option Mapping
  | [] => some vars
  | .error _ :: _ => none
  | .ok msg :: rest =>
    if msg.type = ErrorType then none
    else if msg.type = InfoType then streamAccum vars rest
    else if msg.type = SetEnvType then
      match cutString '=' msg.message with
      | none => none
      | some (k, v) => streamAccum (mapSet vars k v) rest
    else none

/-- Adds a list of already-emitted events in front of the trace of an outcome. -/
def prependEvents (evs : List Event) : LoopOutcome → LoopOutcome
  | .eof vars evs2 => .eof vars (evs ++ evs2)
  | .fail d evs2 => .fail d (evs ++ evs2)

/-- Concrete fixture: a run whose stream sets HOST=x and exits cleanly. -/
def execSetenvHost : PluginExec := ⟨none, none, [.ok ⟨"setenv", "HOST=x"⟩], none⟩

/-- Concrete fixture: a run whose plugin reports an error message. -/
def execErrorMsg : PluginExec := ⟨none, none, [.ok ⟨"error", "boom"⟩], none⟩

/-- Concrete fixture: info, then an error message, then a setenv. -/
def execInfoErrorSetenv : PluginExec :=
  ⟨none, none,
   [.ok ⟨"info", "pull"⟩, .ok ⟨"error", "boom"⟩, .ok ⟨"setenv", "A=1"⟩], none⟩

/-- Concrete fixture: a message of unrecognized kind. -/
def execBadKind : PluginExec := ⟨none, none, [.ok ⟨"warn", "x"⟩], none⟩

/-- Concrete fixture: clean stream but failing process-wait. -/
def execWaitFail : PluginExec := ⟨none, none, [], some "exit status 1"⟩

/-- Concrete fixture: a setenv payload without an equals sign. -/
def execBadSetenv : PluginExec := ⟨none, none, [.ok ⟨"setenv", "NOEQ"⟩], none⟩

/-- Concrete fixture: a single info message. -/
def execInfoHello : PluginExec := ⟨none, none, [.ok ⟨"info", "hello"⟩], none⟩

/-- Concrete fixture: a service depending on db. -/
def webService : ServiceConfig := ⟨"web", ["db"], []⟩

/-- Concrete fixture: a service not depending on db. -/
def cacheService : ServiceConfig := ⟨"cache", [], [("K", some "v")]⟩

/-- Concrete fixture: a project with one dependent and one bystander. -/
def sampleProject : Project := ⟨"proj", [("web", webService), ("cache", cacheService)]⟩

/-! Basic lemmas about the Go map model. -/

theorem mapGet_set_same {α : Type} (m : List (String × α)) (k : String) (v : α) :
    mapGet? (mapSet m k v) k = some v := by
  induction m with
  | nil => simp [mapSet, mapGet?]
  | cons p rest ih =>
    obtain ⟨k0, v0⟩ := p
    by_cases h : k0 = k
    · simp [mapSet, mapGet?, h]
    · simp [mapSet, mapGet?, h, ih]

theorem mapGet_set_other {α : Type} (m : List (String × α)) (k k2 : String) (v : α)
    (h : k2 ≠ k) : mapGet? (mapSet m k2 v) k = mapGet? m k := by
  induction m with
  | nil => simp [mapSet, mapGet?, h]
  | cons p rest ih =>
    obtain ⟨k0, v0⟩ := p
    by_cases h0 : k0 = k2
    · subst h0
      simp [mapSet, mapGet?, h]
    · simp [mapSet, h0, mapGet?, ih]

theorem mem_keys_of_mem_keys_mapSet {α : Type} (m : List (String × α))
    (k a : String) (v : α) (h : a ∈ (mapSet m k v).map Prod.fst) :
    a ∈ m.map Prod.fst ∨ a = k := by
  induction m with
  | nil =>
    simp [mapSet] at h
    exact Or.inr h
  | cons p rest ih =>
    obtain ⟨k0, v0⟩ := p
    by_cases h0 : k0 = k
    · rw [show mapSet ((k0, v0) :: rest) k v = (k0, v) :: rest from by
        simp [mapSet, h0]] at h
      rw [List.map_cons, List.mem_cons] at h
      rcases h with h | h
      · exact Or.inl (by rw [List.map_cons, List.mem_cons]; exact Or.inl h)
      · exact Or.inl (by rw [List.map_cons, List.mem_cons]; exact Or.inr h)
    · rw [show mapSet ((k0, v0) :: rest) k v = (k0, v0) :: mapSet rest k v from by
        simp [mapSet, h0]] at h
      rw [List.map_cons, List.mem_cons] at h
      rcases h with h | h
      · exact Or.inl (by rw [List.map_cons, List.mem_cons]; exact Or.inl h)
      · rcases ih h with h2 | h2
        · exact Or.inl (by rw [List.map_cons, List.mem_cons]; exact Or.inr h2)
        · exact Or.inr h2

theorem nodup_keys_mapSet {α : Type} (m : List (String × α)) (k : String) (v : α)
    (h : (m.map Prod.fst).Nodup) : ((mapSet m k v).map Prod.fst).Nodup := by
  induction m with
  | nil => simp [mapSet]
  | cons p rest ih =>
    obtain ⟨k0, v0⟩ := p
    rw [List.map_cons, List.nodup_cons] at h
    by_cases h0 : k0 = k
    · rw [show mapSet ((k0, v0) :: rest) k v = (k0, v) :: rest from by
        simp [mapSet, h0]]
      rw [List.map_cons, List.nodup_cons]
      exact ⟨h.1, h.2⟩
    · rw [show mapSet ((k0, v0) :: rest) k v = (k0, v0) :: mapSet rest k v from by
        simp [mapSet, h0]]
      rw [List.map_cons, List.nodup_cons]
      refine ⟨?_, ih h.2⟩
      intro hmem
      rcases mem_keys_of_mem_keys_mapSet rest k (k0, v0).1 v hmem with h2 | h2
      · exact h.1 h2
      · exact h0 h2

theorem mem_of_mapGet {α : Type} (m : List (String × α)) (k : String) (v : α)
    (h : mapGet? m k = some v) : (k, v) ∈ m := by
  induction m with
  | nil => simp [mapGet?] at h
  | cons p rest ih =>
    obtain ⟨k0, v0⟩ := p
    by_cases h0 : k0 = k
    · subst h0
      simp [mapGet?] at h
      simp [h]
    · simp [mapGet?, h0] at h
      exact List.mem_cons_of_mem _ (ih h)

/-! Lemmas about the strings.Cut embedding. -/

theorem stringsCut_some_of_mem (sep : Char) (l : List Char) (h : sep ∈ l) :
    ∃ k v, stringsCut sep l = some (k, v) := by
  induction l with
  | nil => cases h
  | cons c cs ih =>
    by_cases hc : c = sep
    · exact ⟨[], cs, by simp [stringsCut, hc]⟩
    · have hmem : sep ∈ cs := by
        cases h with
        | head => exact absurd rfl hc
        | tail _ h2 => exact h2
      obtain ⟨k, v, hkv⟩ := ih hmem
      exact ⟨c :: k, v, by simp [stringsCut, hc, hkv]⟩

theorem stringsCut_split (sep : Char) (l : List Char) :
    ∀ k v : List Char, stringsCut sep l = some (k, v) →
      l = k ++ sep :: v ∧ sep ∉ k := by
  induction l with
  | nil => intro k v h; simp [stringsCut] at h
  | cons c cs ih =>
    intro k v h
    by_cases hc : c = sep
    · subst hc
      simp [stringsCut] at h
      obtain ⟨hk, hv⟩ := h
      subst hk
      subst hv
      simp
    · cases hcs : stringsCut sep cs with
      | none => simp [stringsCut, hc, hcs] at h
      | some kv =>
        obtain ⟨k0, v0⟩ := kv
        simp [stringsCut, hc, hcs] at h
        obtain ⟨hk, hv⟩ := h
        subst hk
        subst hv
        obtain ⟨hl, hnot⟩ := ih k0 v0 hcs
        constructor
        · rw [hl]; simp
        · intro hmem
          cases hmem with
          | head => exact hc rfl
          | tail _ h2 => exact hnot h2

theorem stringsCut_of_split (sep : Char) (k : List Char) :
    ∀ v : List Char, sep ∉ k → stringsCut sep (k ++ sep :: v) = some (k, v) := by
  induction k with
  | nil => intro v _; simp [stringsCut]
  | cons c cs ih =>
    intro v h
    have hc : ¬ c = sep := by
      intro hc
      exact h (by rw [hc]; exact List.mem_cons_self _ _)
    have hcs : sep ∉ cs := fun hm => h (List.mem_cons_of_mem _ hm)
    simp [stringsCut, hc, ih v hcs]

/-! String-level corollaries. -/

theorem string_data_append (a b : String) : (a ++ b).data = a.data ++ b.data := by
  cases a
  cases b
  rfl

theorem string_append_cancel_left (p a b : String) (h : p ++ a = p ++ b) :
    a = b := by
  have hd : p.data ++ a.data = p.data ++ b.data := by
    have h2 := congrArg String.data h
    rw [string_data_append, string_data_append] at h2
    exact h2
  have h3 : a.data = b.data := List.append_cancel_left hd
  exact congrArg String.mk h3

theorem cutString_split (s k v : String) (h : cutString '=' s = some (k, v)) :
    s.data = k.data ++ '=' :: v.data ∧ '=' ∉ k.data := by
  unfold cutString at h
  cases hc : stringsCut '=' s.data with
  | none => rw [hc] at h; simp at h
  | some kv =>
    obtain ⟨kl, vl⟩ := kv
    rw [hc] at h
    simp at h
    obtain ⟨hk, hv⟩ := h
    obtain ⟨hsplit, hmem⟩ := stringsCut_split '=' s.data kl vl hc
    subst hk
    subst hv
    exact ⟨hsplit, hmem⟩

theorem cutString_some_of_mem (s : String) (h : '=' ∈ s.data) :
    ∃ k v, cutString '=' s = some (k, v) := by
  obtain ⟨kl, vl, hkv⟩ := stringsCut_some_of_mem '=' s.data h
  exact ⟨String.mk kl, String.mk vl, by unfold cutString; rw [hkv]⟩

theorem cutString_of_split (k v : String) (h : '=' ∉ k.data) :
    cutString '=' (k ++ "=" ++ v) = some (k, v) := by
  have hd : (k ++ "=" ++ v).data = k.data ++ '=' :: v.data := by
    rw [string_data_append, string_data_append, List.append_assoc]
    rfl
  unfold cutString
  rw [hd, stringsCut_of_split '=' k.data v.data h]

/-! Structural lemmas about the decode loop. -/

theorem info_ne_error : InfoType ≠ ErrorType := by decide

theorem setenv_ne_error : SetEnvType ≠ ErrorType := by decide

theorem setenv_ne_info : SetEnvType ≠ InfoType := by decide

theorem prependEvents_nil (o : LoopOutcome) : prependEvents [] o = o := by
  cases o <;> rfl

theorem prependEvents_prependEvent (evs : List Event) (ev : Event)
    (o : LoopOutcome) :
    (prependEvents evs o).prependEvent ev = prependEvents (ev :: evs) o := by
  cases o <;> rfl

theorem decodeLoop_append (svc : String) (xs : List StreamItem) :
    ∀ (vars v2 : Mapping), streamAccum vars xs = some v2 →
      ∀ ys, ∃ evs,
        decodeLoop svc vars (xs ++ ys) = prependEvents evs (decodeLoop svc v2 ys) := by
  induction xs with
  | nil =>
    intro vars v2 h ys
    simp [streamAccum] at h
    subst h
    exact ⟨[], by rw [prependEvents_nil]; rfl⟩
  | cons x rest ih =>
    intro vars v2 h ys
    cases x with
    | error d => simp [streamAccum] at h
    | ok msg =>
      by_cases h1 : msg.type = ErrorType
      · simp [streamAccum, h1] at h
      · by_cases h2 : msg.type = InfoType
        · rw [show streamAccum vars (.ok msg :: rest) = streamAccum vars rest from by
            simp [streamAccum, h1, h2, info_ne_error]] at h
          obtain ⟨evs, he⟩ := ih vars v2 h ys
          refine ⟨.errorMessage svc msg.message :: evs, ?_⟩
          rw [show ((.ok msg :: rest) ++ ys : List StreamItem) = .ok msg :: (rest ++ ys) from rfl]
          rw [show decodeLoop svc vars (.ok msg :: (rest ++ ys))
              = (decodeLoop svc vars (rest ++ ys)).prependEvent
                  (.errorMessage svc msg.message) from by
            simp [decodeLoop, h1, h2, info_ne_error]]
          rw [he, prependEvents_prependEvent]
        · by_cases h3 : msg.type = SetEnvType
          · cases hcut : cutString '=' msg.message with
            | none => simp [streamAccum, h1, h2, h3, hcut, setenv_ne_error, setenv_ne_info] at h
            | some kv =>
              obtain ⟨k, v⟩ := kv
              rw [show streamAccum vars (.ok msg :: rest)
                  = streamAccum (mapSet vars k v) rest from by
                simp [streamAccum, h1, h2, h3, hcut, setenv_ne_error, setenv_ne_info]] at h
              obtain ⟨evs, he⟩ := ih (mapSet vars k v) v2 h ys
              refine ⟨evs, ?_⟩
              rw [show ((.ok msg :: rest) ++ ys : List StreamItem)
                  = .ok msg :: (rest ++ ys) from rfl]
              rw [show decodeLoop svc vars (.ok msg :: (rest ++ ys))
                  = decodeLoop svc (mapSet vars k v) (rest ++ ys) from by
                simp [decodeLoop, h1, h2, h3, hcut, setenv_ne_error, setenv_ne_info]]
              exact he
          · simp [streamAccum, h1, h2, h3] at h

theorem decodeLoop_eof_of_accum (svc : String) (xs : List StreamItem)
    (vars v2 : Mapping) (h : streamAccum vars xs = some v2) :
    ∃ evs, decodeLoop svc vars xs = .eof v2 evs := by
  obtain ⟨evs, he⟩ := decodeLoop_append svc xs vars v2 h []
  rw [List.append_nil] at he
  exact ⟨evs ++ [], by rw [he]; rfl⟩

theorem decodeLoop_eof_nodup (svc : String) (xs : List StreamItem) :
    ∀ (vars V : Mapping) (evs : List Event),
      (vars.map Prod.fst).Nodup → decodeLoop svc vars xs = .eof V evs →
      (V.map Prod.fst).Nodup := by
  induction xs with
  | nil =>
    intro vars V evs hnd h
    simp [decodeLoop] at h
    obtain ⟨h1, _⟩ := h
    exact h1 ▸ hnd
  | cons x rest ih =>
    intro vars V evs hnd h
    cases x with
    | error d => simp [decodeLoop] at h
    | ok msg =>
      by_cases h1 : msg.type = ErrorType
      · simp [decodeLoop, h1] at h
      · by_cases h2 : msg.type = InfoType
        · rw [show decodeLoop svc vars (.ok msg :: rest)
              = (decodeLoop svc vars rest).prependEvent
                  (.errorMessage svc msg.message) from by
            simp [decodeLoop, h1, h2, info_ne_error]] at h
          cases hd : decodeLoop svc vars rest with
          | eof v2 e2 =>
            rw [hd] at h
            simp [LoopOutcome.prependEvent] at h
            obtain ⟨ha, _⟩ := h
            have hv2 := ih vars v2 e2 hnd hd
            exact ha ▸ hv2
          | fail d2 e2 =>
            rw [hd] at h
            simp [LoopOutcome.prependEvent] at h
        · by_cases h3 : msg.type = SetEnvType
          · cases hcut : cutString '=' msg.message with
            | none => simp [decodeLoop, h1, h2, h3, hcut, setenv_ne_error, setenv_ne_info] at h
            | some kv =>
              obtain ⟨k, v⟩ := kv
              rw [show decodeLoop svc vars (.ok msg :: rest)
                  = decodeLoop svc (mapSet vars k v) rest from by
                simp [decodeLoop, h1, h2, h3, hcut, setenv_ne_error, setenv_ne_info]] at h
              exact ih (mapSet vars k v) V evs (nodup_keys_mapSet vars k v hnd) h
          · simp [decodeLoop, h1, h2, h3] at h

/-! Path lemmas for executePlugin. -/

theorem executePlugin_pipe_err (e : PluginExec) (cmd svc err : String)
    (hp : e.stdoutPipeErr = some err) :
    executePlugin e cmd svc = ⟨.error err, [], 0⟩ := by
  unfold executePlugin
  rw [hp]

theorem executePlugin_start_err (e : PluginExec) (cmd svc err : String)
    (hp : e.stdoutPipeErr = none) (hs : e.startErr = some err) :
    executePlugin e cmd svc = ⟨.error err, [], 0⟩ := by
  unfold executePlugin
  rw [hp, hs]

theorem executePlugin_unsupported (e : PluginExec) (cmd svc : String)
    (hp : e.stdoutPipeErr = none) (hs : e.startErr = none)
    (hse : startEvent cmd svc = none) :
    executePlugin e cmd svc = ⟨.error ("unsupported plugin command: " ++ cmd), [], 0⟩ := by
  unfold executePlugin
  rw [hp, hs, hse]

theorem executePlugin_loop_fail (e : PluginExec) (cmd svc : String)
    (ev0 : Event) (action d : String) (evs : List Event)
    (hp : e.stdoutPipeErr = none) (hs : e.startErr = none)
    (hse : startEvent cmd svc = some (ev0, action))
    (hd : decodeLoop svc [] e.stream = .fail d evs) :
    executePlugin e cmd svc = ⟨.error d, ev0 :: evs, 0⟩ := by
  unfold executePlugin
  rw [hp, hs, hse, hd]

theorem executePlugin_wait_err (e : PluginExec) (cmd svc : String)
    (ev0 : Event) (action werr : String) (vars : Mapping) (evs : List Event)
    (hp : e.stdoutPipeErr = none) (hs : e.startErr = none)
    (hse : startEvent cmd svc = some (ev0, action))
    (hd : decodeLoop svc [] e.stream = .eof vars evs)
    (hw : e.waitErr = some werr) :
    executePlugin e cmd svc
      = ⟨.error ("failed to " ++ action ++ " external service: " ++ werr),
         ev0 :: (evs ++ [.errorMessage svc werr]), 1⟩ := by
  unfold executePlugin
  rw [hp, hs, hse, hd, hw]

theorem executePlugin_success (e : PluginExec) (cmd svc : String)
    (ev0 : Event) (action : String) (vars : Mapping) (evs : List Event)
    (hp : e.stdoutPipeErr = none) (hs : e.startErr = none)
    (hse : startEvent cmd svc = some (ev0, action))
    (hd : decodeLoop svc [] e.stream = .eof vars evs)
    (hw : e.waitErr = none) :
    executePlugin e cmd svc
      = ⟨.ok vars, ev0 :: (evs ++ doneEvents cmd svc), 1⟩ := by
  unfold executePlugin
  rw [hp, hs, hse, hd, hw]

theorem executePlugin_ok_inv (e : PluginExec) (cmd svc : String) (V : Mapping)
    (h : (executePlugin e cmd svc).result = .ok V) :
    e.stdoutPipeErr = none ∧ e.startErr = none ∧ e.waitErr = none ∧
    (cmd = "up" ∨ cmd = "down") ∧
    ∃ evs, decodeLoop svc [] e.stream = .eof V evs := by
  cases hp : e.stdoutPipeErr with
  | some err => rw [executePlugin_pipe_err e cmd svc err hp] at h; simp at h
  | none =>
    cases hs : e.startErr with
    | some err => rw [executePlugin_start_err e cmd svc err hp hs] at h; simp at h
    | none =>
      cases hse : startEvent cmd svc with
      | none => rw [executePlugin_unsupported e cmd svc hp hs hse] at h; simp at h
      | some p =>
        obtain ⟨ev0, action⟩ := p
        have hcmd : cmd = "up" ∨ cmd = "down" := by
          by_cases hup : cmd = "up"
          · exact Or.inl hup
          · by_cases hdn : cmd = "down"
            · exact Or.inr hdn
            · rw [show startEvent cmd svc = none from by
                simp [startEvent, hup, hdn]] at hse
              cases hse
        cases hd : decodeLoop svc [] e.stream with
        | fail d evs =>
          rw [executePlugin_loop_fail e cmd svc ev0 action d evs hp hs hse hd] at h
          simp at h
        | eof vars evs =>
          cases hw : e.waitErr with
          | some werr =>
            rw [executePlugin_wait_err e cmd svc ev0 action werr vars evs
              hp hs hse hd hw] at h
            simp at h
          | none =>
            rw [executePlugin_success e cmd svc ev0 action vars evs
              hp hs hse hd hw] at h
            simp at h
            refine ⟨rfl, rfl, rfl, hcmd, evs, ?_⟩
            rw [h]

/-! Lemmas about the propagation step. -/

theorem mergeEnv_cons (pre : String) (kv : String × String) (rest : Mapping)
    (env : MappingWithEquals) :
    mergeEnv pre (kv :: rest) env
      = mergeEnv pre rest (mapSet env (pre ++ kv.1) (some kv.2)) := rfl

theorem mapGet_mergeEnv_untouched (pre : String) (vs : Mapping) :
    ∀ (env : MappingWithEquals) (q : String),
      (∀ kv ∈ vs, pre ++ kv.1 ≠ q) →
      mapGet? (mergeEnv pre vs env) q = mapGet? env q := by
  induction vs with
  | nil => intro env q _; rfl
  | cons kv rest ih =>
    intro env q h
    rw [mergeEnv_cons]
    rw [ih _ q (fun x hx => h x (List.mem_cons_of_mem _ hx))]
    exact mapGet_set_other env q (pre ++ kv.1) (some kv.2)
      (h kv (List.mem_cons_self _ _))

theorem mapGet_mergeEnv_mem (pre : String) (vs : Mapping) :
    ∀ (env : MappingWithEquals) (k v : String),
      (vs.map Prod.fst).Nodup → (k, v) ∈ vs →
      mapGet? (mergeEnv pre vs env) (pre ++ k) = some (some v) := by
  induction vs with
  | nil => intro env k v _ hmem; cases hmem
  | cons kv rest ih =>
    intro env k v hnd hmem
    obtain ⟨k0, v0⟩ := kv
    rw [List.map_cons, List.nodup_cons] at hnd
    rw [mergeEnv_cons]
    rcases List.mem_cons.mp hmem with heq | hmem2
    · have hk : k = k0 := congrArg Prod.fst heq
      have hv : v = v0 := congrArg Prod.snd heq
      subst hk
      subst hv
      rw [mapGet_mergeEnv_untouched pre rest _ (pre ++ k) ?_]
      · exact mapGet_set_same env (pre ++ k) (some v)
      · intro x hx heq2
        have hx1 : x.1 = k := string_append_cancel_left pre x.1 k heq2
        have hmem3 : x.1 ∈ rest.map Prod.fst := List.mem_map_of_mem Prod.fst hx
        rw [hx1] at hmem3
        exact hnd.1 hmem3
    · exact ih _ k v hnd.2 hmem2

/-! Path lemmas for runPlugin. -/

theorem runPlugin_getPlugin_err (ge : Option String) (e : PluginExec)
    (p : Project) (svc cmd err : String) :
    runPlugin (some err) ge e p svc cmd = ⟨some err, p, [], 0⟩ := rfl

theorem runPlugin_gate_err (e : PluginExec) (p : Project) (svc cmd err : String) :
    runPlugin none (some err) e p svc cmd = ⟨some err, p, [], 0⟩ := rfl

theorem runPlugin_exec_err (e : PluginExec) (p : Project) (svc cmd err : String)
    (h : (executePlugin e cmd svc).result = .error err) :
    runPlugin none none e p svc cmd
      = ⟨some err, p, (executePlugin e cmd svc).events,
         (executePlugin e cmd svc).waitJoins⟩ := by
  unfold runPlugin
  rw [h]

theorem runPlugin_exec_ok (e : PluginExec) (p : Project) (svc cmd : String)
    (V : Mapping) (h : (executePlugin e cmd svc).result = .ok V) :
    runPlugin none none e p svc cmd
      = ⟨none, propagateVariables svc V p, (executePlugin e cmd svc).events,
         (executePlugin e cmd svc).waitJoins⟩ := by
  unfold runPlugin
  rw [h]

theorem startEvent_of_updown (cmd svc : String)
    (hcmd : cmd = "up" ∨ cmd = "down") :
    ∃ ev0 action, startEvent cmd svc = some (ev0, action) := by
  rcases hcmd with h | h
  · exact ⟨.creating svc, "create", by simp [startEvent, h]⟩
  · exact ⟨.removing svc, "remove", by simp [startEvent, h]⟩

/-! Claim theorems. -/

/-- C1: after a successful invocation of runPlugin for service svc with
result variable set V, every service in the project that declares a
dependency on svc gains, for each entry KEY -> VAL of V, the environment
entry (uppercase(svc) ++ "_" ++ KEY) -> VAL, and every service that does
not depend on svc is left unchanged (the propagation map is the identity
on it). -/
theorem runPlugin_propagates_to_dependents (e : PluginExec) (p : Project)
    (svc cmd : String) (V : Mapping)
    (hok : (executePlugin e cmd svc).result = .ok V) :
    (runPlugin none none e p svc cmd).err = none ∧
    (runPlugin none none e p svc cmd).project.services
      = p.services.map (fun ns =>
          if ns.2.dependsOn.contains svc then
            (ns.1,
             { ns.2 with
               environment := mergeEnv (svc.toUpper ++ "_") V ns.2.environment })
          else ns) ∧
    (∀ ns ∈ p.services, ns.2.dependsOn.contains svc = true →
       ∀ k v, mapGet? V k = some v →
         mapGet? (mergeEnv (svc.toUpper ++ "_") V ns.2.environment)
           (svc.toUpper ++ "_" ++ k) = some (some v)) := by
  have hrun := runPlugin_exec_ok e p svc cmd V hok
  refine ⟨by rw [hrun], by rw [hrun]; rfl, ?_⟩
  intro ns _ _ k v hkv
  have hnd : (V.map Prod.fst).Nodup := by
    obtain ⟨_, _, _, _, evs, hd⟩ := executePlugin_ok_inv e cmd svc V hok
    exact decodeLoop_eof_nodup svc e.stream [] V evs (by simp) hd
  exact mapGet_mergeEnv_mem (svc.toUpper ++ "_") V ns.2.environment k v hnd
    (mem_of_mapGet V k v hkv)

theorem runPlugin_propagates_to_dependents_witness :
    mapGet? (mergeEnv ("db".toUpper ++ "_") [("HOST", "x")] webService.environment)
      ("db".toUpper ++ "_" ++ "HOST") = some (some "x") := by
  have h := runPlugin_propagates_to_dependents execSetenvHost sampleProject
    "db" "up" [("HOST", "x")] rfl
  exact h.2.2 ("web", webService) (by decide) rfl "HOST" "x" rfl

/-- C2: for every decoded message of kind setenv whose payload contains
at least one equals sign, the loop splits the payload at the first equals
sign into KEY and VALUE (the key holds no equals sign and the payload is
KEY ++ "=" ++ VALUE), inserts the entry, and the variable set afterwards
maps KEY to VALUE. -/
theorem setenv_splits_at_first_eq (svc : String) (vars : Mapping)
    (msg : JsonMessage) (rest : List StreamItem)
    (ht : msg.type = SetEnvType) (hhas : '=' ∈ msg.message.data) :
    ∃ k v : String,
      cutString '=' msg.message = some (k, v) ∧
      msg.message.data = k.data ++ '=' :: v.data ∧ '=' ∉ k.data ∧
      decodeLoop svc vars (.ok msg :: rest)
        = decodeLoop svc (mapSet vars k v) rest ∧
      mapGet? (mapSet vars k v) k = some v := by
  obtain ⟨k, v, hcut⟩ := cutString_some_of_mem msg.message hhas
  obtain ⟨hsplit, hnot⟩ := cutString_split msg.message k v hcut
  refine ⟨k, v, hcut, hsplit, hnot, ?_, mapGet_set_same vars k v⟩
  simp [decodeLoop, ht, setenv_ne_error, setenv_ne_info, hcut]

theorem setenv_splits_at_first_eq_witness :
    ∃ k v : String,
      cutString '=' "HOST=x" = some (k, v) ∧
      ("HOST=x" : String).data = k.data ++ '=' :: v.data ∧ '=' ∉ k.data ∧
      decodeLoop "db" [] [.ok ⟨"setenv", "HOST=x"⟩]
        = decodeLoop "db" (mapSet [] k v) [] ∧
      mapGet? (mapSet [] k v) k = some v :=
  setenv_splits_at_first_eq "db" [] ⟨"setenv", "HOST=x"⟩ [] rfl (by decide)

/-- C3: executePlugin returns a variable set only when the stream was
fully decoded to end-of-stream and the joined process-wait reported a
zero status (no pipe, start or wait failure); and whenever runPlugin
returns an error, the project is returned untouched, so no partial
variable set is propagated into the configuration graph. -/
theorem success_requires_eof_and_zero_exit (e : PluginExec) (cmd svc : String)
    (p : Project) (gpe ge : Option String) :
    (∀ V, (executePlugin e cmd svc).result = .ok V →
        e.stdoutPipeErr = none ∧ e.startErr = none ∧ e.waitErr = none ∧
        (executePlugin e cmd svc).waitJoins = 1 ∧
        ∃ evs, decodeLoop svc [] e.stream = .eof V evs) ∧
    (∀ err, (runPlugin gpe ge e p svc cmd).err = some err →
        (runPlugin gpe ge e p svc cmd).project = p) := by
  constructor
  · intro V hok
    obtain ⟨hp, hs, hw, hcmd, evs, hd⟩ := executePlugin_ok_inv e cmd svc V hok
    refine ⟨hp, hs, hw, ?_, evs, hd⟩
    rcases hcmd with hup | hdn
    · rw [executePlugin_success e cmd svc (.creating svc) "create" V evs hp hs
        (by simp [startEvent, hup]) hd hw]
    · rw [executePlugin_success e cmd svc (.removing svc) "remove" V evs hp hs
        (by simp [startEvent, hdn]) hd hw]
  · intro err herr
    cases gpe with
    | some g => rfl
    | none =>
      cases ge with
      | some g => rfl
      | none =>
        cases hres : (executePlugin e cmd svc).result with
        | error d => rw [runPlugin_exec_err e p svc cmd d hres]
        | ok V =>
          rw [runPlugin_exec_ok e p svc cmd V hres] at herr
          simp at herr

theorem success_requires_eof_and_zero_exit_witness :
    execSetenvHost.stdoutPipeErr = none ∧ execSetenvHost.startErr = none ∧
    execSetenvHost.waitErr = none ∧
    (executePlugin execSetenvHost "up" "db").waitJoins = 1 ∧
    ∃ evs, decodeLoop "db" [] execSetenvHost.stream = .eof [("HOST", "x")] evs :=
  (success_requires_eof_and_zero_exit execSetenvHost "up" "db" sampleProject
    none none).1 [("HOST", "x")] rfl

/-- C4 counterexample: on a stream whose first message is an `error`
message the loop returns early and executePlugin returns without joining
the process-wait even once, refuting the claim that the wait is joined
exactly once on every completion path of the decode loop. -/
theorem wait_join_skipped_on_error_path :
    (executePlugin execErrorMsg "up" "db").result = .error "boom" ∧
    ¬ ((executePlugin execErrorMsg "up" "db").waitJoins = 1) := by
  refine ⟨rfl, ?_⟩
  intro h
  have h0 : (executePlugin execErrorMsg "up" "db").waitJoins = 0 := rfl
  rw [h0] at h
  exact absurd h (by decide)

/-- C4 amended: the process-wait is joined exactly once when and only
when the decode loop completes normally at end-of-stream; on every early
return of the loop (decode error, protocol violation or an `error`
message) executePlugin returns with the process-wait never joined. -/
theorem wait_joined_only_on_eof_path (e : PluginExec) (cmd svc : String)
    (hp : e.stdoutPipeErr = none) (hs : e.startErr = none)
    (hcmd : cmd = "up" ∨ cmd = "down") :
    (executePlugin e cmd svc).waitJoins
      = (match decodeLoop svc [] e.stream with
         | .eof _ _ => 1
         | .fail _ _ => 0) := by
  obtain ⟨ev0, action, hse⟩ := startEvent_of_updown cmd svc hcmd
  cases hd : decodeLoop svc [] e.stream with
  | eof vars evs =>
    cases hw : e.waitErr with
    | some w =>
      rw [executePlugin_wait_err e cmd svc ev0 action w vars evs hp hs hse hd hw]
    | none =>
      rw [executePlugin_success e cmd svc ev0 action vars evs hp hs hse hd hw]
  | fail d evs =>
    rw [executePlugin_loop_fail e cmd svc ev0 action d evs hp hs hse hd]

theorem wait_joined_only_on_eof_path_witness :
    (executePlugin execBadKind "up" "db").waitJoins
      = (match decodeLoop "db" [] execBadKind.stream with
         | .eof _ _ => 1
         | .fail _ _ => 0) :=
  wait_joined_only_on_eof_path execBadKind "up" "db" rfl rfl (Or.inl rfl)

/-- C5: whenever the decode loop reaches a message of kind `error`, the
invocation fails and the returned error text is exactly the message
payload, whatever messages follow in the stream (the result does not
depend on the suffix s2). -/
theorem error_message_aborts_with_payload (e : PluginExec) (cmd svc : String)
    (s1 s2 : List StreamItem) (m : JsonMessage) (v2 : Mapping)
    (hp : e.stdoutPipeErr = none) (hs : e.startErr = none)
    (hcmd : cmd = "up" ∨ cmd = "down")
    (hstream : e.stream = s1 ++ .ok m :: s2)
    (hm : m.type = ErrorType)
    (hpre : streamAccum [] s1 = some v2) :
    (executePlugin e cmd svc).result = .error m.message := by
  obtain ⟨ev0, action, hse⟩ := startEvent_of_updown cmd svc hcmd
  obtain ⟨evs, he⟩ := decodeLoop_append svc s1 [] v2 hpre (.ok m :: s2)
  rw [show decodeLoop svc v2 (.ok m :: s2)
      = .fail m.message [.errorMessage svc "error"] from by
    simp [decodeLoop, hm]] at he
  have hd : decodeLoop svc [] e.stream
      = .fail m.message (evs ++ [.errorMessage svc "error"]) := by
    rw [hstream, he]
    rfl
  rw [executePlugin_loop_fail e cmd svc ev0 action m.message
    (evs ++ [.errorMessage svc "error"]) hp hs hse hd]

theorem error_message_aborts_with_payload_witness :
    (executePlugin execInfoErrorSetenv "up" "db").result = .error "boom" :=
  error_message_aborts_with_payload execInfoErrorSetenv "up" "db"
    [.ok ⟨"info", "pull"⟩] [.ok ⟨"setenv", "A=1"⟩] ⟨"error", "boom"⟩ []
    rfl rfl (Or.inl rfl) rfl rfl (by decide)

/-- C6: when the decode loop reaches a decoder failure, a message of
unrecognized kind, or a setenv payload with no equals sign, the whole
invocation fails (with the error text of the decoder, respectively the
"invalid response from plugin" text) and the result does not depend on
the remaining messages s2. -/
theorem protocol_violations_abort (e : PluginExec) (cmd svc : String)
    (s1 s2 : List StreamItem) (x : StreamItem) (v2 : Mapping)
    (hp : e.stdoutPipeErr = none) (hs : e.startErr = none)
    (hcmd : cmd = "up" ∨ cmd = "down")
    (hstream : e.stream = s1 ++ x :: s2)
    (hpre : streamAccum [] s1 = some v2) :
    (∀ d, x = .error d → (executePlugin e cmd svc).result = .error d) ∧
    (∀ m, x = .ok m → m.type ≠ ErrorType → m.type ≠ InfoType →
       m.type ≠ SetEnvType →
       (executePlugin e cmd svc).result
         = .error ("invalid response from plugin: " ++ m.type)) ∧
    (∀ m, x = .ok m → m.type = SetEnvType → cutString '=' m.message = none →
       (executePlugin e cmd svc).result
         = .error ("invalid response from plugin: " ++ m.message)) := by
  obtain ⟨ev0, action, hse⟩ := startEvent_of_updown cmd svc hcmd
  obtain ⟨evs, he⟩ := decodeLoop_append svc s1 [] v2 hpre (x :: s2)
  refine ⟨?_, ?_, ?_⟩
  · intro d hx
    subst hx
    rw [show decodeLoop svc v2 (.error d :: s2) = .fail d [] from by
      simp [decodeLoop]] at he
    have hd : decodeLoop svc [] e.stream = .fail d (evs ++ []) := by
      rw [hstream, he]
      rfl
    rw [executePlugin_loop_fail e cmd svc ev0 action d (evs ++ []) hp hs hse hd]
  · intro m hx h1 h2 h3
    subst hx
    rw [show decodeLoop svc v2 (.ok m :: s2)
        = .fail ("invalid response from plugin: " ++ m.type) [] from by
      simp [decodeLoop, h1, h2, h3]] at he
    have hd : decodeLoop svc [] e.stream
        = .fail ("invalid response from plugin: " ++ m.type) (evs ++ []) := by
      rw [hstream, he]
      rfl
    rw [executePlugin_loop_fail e cmd svc ev0 action
      ("invalid response from plugin: " ++ m.type) (evs ++ []) hp hs hse hd]
  · intro m hx h3 hcut
    subst hx
    have h1 : m.type ≠ ErrorType := by rw [h3]; exact setenv_ne_error
    have h2 : m.type ≠ InfoType := by rw [h3]; exact setenv_ne_info
    rw [show decodeLoop svc v2 (.ok m :: s2)
        = .fail ("invalid response from plugin: " ++ m.message) [] from by
      simp [decodeLoop, h1, h2, h3, hcut, setenv_ne_error, setenv_ne_info]] at he
    have hd : decodeLoop svc [] e.stream
        = .fail ("invalid response from plugin: " ++ m.message) (evs ++ []) := by
      rw [hstream, he]
      rfl
    rw [executePlugin_loop_fail e cmd svc ev0 action
      ("invalid response from plugin: " ++ m.message) (evs ++ []) hp hs hse hd]

theorem protocol_violations_abort_witness :
    (executePlugin execBadKind "up" "db").result
      = .error ("invalid response from plugin: " ++ "warn") :=
  (protocol_violations_abort execBadKind "up" "db" [] [] (.ok ⟨"warn", "x"⟩) []
    rfl rfl (Or.inl rfl) rfl rfl).2.1 ⟨"warn", "x"⟩ rfl (by decide) (by decide)
    (by decide)

/-- C7: when the stream ends cleanly at end-of-stream but the joined
process-wait reports a failure, the invocation fails with an error text
naming the operation ("create" for command up, "remove" for command
down) and containing the text of the wait failure, and an error lifecycle
event keyed by the service and carrying that text is emitted. -/
theorem exit_failure_names_operation (e : PluginExec) (cmd svc werr : String)
    (v2 : Mapping)
    (hp : e.stdoutPipeErr = none) (hs : e.startErr = none)
    (hw : e.waitErr = some werr)
    (heof : streamAccum [] e.stream = some v2) :
    (cmd = "up" →
       (executePlugin e cmd svc).result
         = .error ("failed to create external service: " ++ werr)) ∧
    (cmd = "down" →
       (executePlugin e cmd svc).result
         = .error ("failed to remove external service: " ++ werr)) ∧
    (cmd = "up" ∨ cmd = "down" →
       Event.errorMessage svc werr ∈ (executePlugin e cmd svc).events) := by
  obtain ⟨evs, hd⟩ := decodeLoop_eof_of_accum svc e.stream [] v2 heof
  refine ⟨?_, ?_, ?_⟩
  · intro hup
    rw [executePlugin_wait_err e cmd svc (.creating svc) "create" werr v2 evs
      hp hs (by simp [startEvent, hup]) hd hw]
    rfl
  · intro hdn
    rw [executePlugin_wait_err e cmd svc (.removing svc) "remove" werr v2 evs
      hp hs (by simp [startEvent, hdn]) hd hw]
    rfl
  · intro hcmd
    obtain ⟨ev0, action, hse⟩ := startEvent_of_updown cmd svc hcmd
    rw [executePlugin_wait_err e cmd svc ev0 action werr v2 evs hp hs hse hd hw]
    simp

theorem exit_failure_names_operation_witness :
    ("up" = "up" →
       (executePlugin execWaitFail "up" "db").result
         = .error ("failed to create external service: " ++ "exit status 1")) ∧
    ("up" = "down" →
       (executePlugin execWaitFail "up" "db").result
         = .error ("failed to remove external service: " ++ "exit status 1")) ∧
    ("up" = "up" ∨ "up" = "down" →
       Event.errorMessage "db" "exit status 1"
         ∈ (executePlugin execWaitFail "up" "db").events) :=
  exit_failure_names_operation execWaitFail "up" "db" "exit status 1" []
    rfl rfl rfl rfl

/-- C8 counterexample: a failing invocation (setenv payload without an
equals sign) whose event trace contains no error lifecycle event at all,
refuting the claim that every failing invocation emits one. -/
theorem failing_run_without_error_event :
    ((runPlugin none none execBadSetenv sampleProject "db" "up").err).isSome
      = true ∧
    (runPlugin none none execBadSetenv sampleProject "db" "up").events
      = [.creating "db"] ∧
    (∀ ev ∈ (runPlugin none none execBadSetenv sampleProject "db" "up").events,
       ev.isError = false) := by
  refine ⟨rfl, rfl, by decide⟩

/-- C8 amended: an error lifecycle event accompanies only two failure
kinds: a plugin-reported `error` message (with the literal text "error")
and a process-wait failure after clean end-of-stream (with the failure
text); resolution, gate and launch failures return with an empty event
trace, and the early returns of the loop for decode errors, unrecognized
kinds and malformed setenv payloads emit no event of their own. -/
theorem error_event_only_on_report_or_exit (e : PluginExec) (p : Project)
    (svc cmd : String) (vars v2 : Mapping) (m : JsonMessage)
    (rest : List StreamItem) :
    (∀ err ge, (runPlugin (some err) ge e p svc cmd).events = []) ∧
    (∀ err, (runPlugin none (some err) e p svc cmd).events = []) ∧
    (∀ err, e.stdoutPipeErr = some err → (executePlugin e cmd svc).events = []) ∧
    (∀ err, e.stdoutPipeErr = none → e.startErr = some err →
       (executePlugin e cmd svc).events = []) ∧
    (∀ d, decodeLoop svc vars (.error d :: rest) = .fail d []) ∧
    (m.type ≠ ErrorType → m.type ≠ InfoType → m.type ≠ SetEnvType →
       decodeLoop svc vars (.ok m :: rest)
         = .fail ("invalid response from plugin: " ++ m.type) []) ∧
    (m.type = SetEnvType → cutString '=' m.message = none →
       decodeLoop svc vars (.ok m :: rest)
         = .fail ("invalid response from plugin: " ++ m.message) []) ∧
    (m.type = ErrorType →
       decodeLoop svc vars (.ok m :: rest)
         = .fail m.message [.errorMessage svc "error"]) ∧
    (∀ werr, e.stdoutPipeErr = none → e.startErr = none →
       (cmd = "up" ∨ cmd = "down") → e.waitErr = some werr →
       streamAccum [] e.stream = some v2 →
       Event.errorMessage svc werr ∈ (executePlugin e cmd svc).events) := by
  refine ⟨fun err ge => rfl, fun err => rfl, ?_, ?_, ?_, ?_, ?_, ?_, ?_⟩
  · intro err hp
    rw [executePlugin_pipe_err e cmd svc err hp]
  · intro err hp hs
    rw [executePlugin_start_err e cmd svc err hp hs]
  · intro d
    simp [decodeLoop]
  · intro h1 h2 h3
    simp [decodeLoop, h1, h2, h3]
  · intro h3 hcut
    have h1 : m.type ≠ ErrorType := by rw [h3]; exact setenv_ne_error
    have h2 : m.type ≠ InfoType := by rw [h3]; exact setenv_ne_info
    simp [decodeLoop, h1, h2, h3, hcut, setenv_ne_error, setenv_ne_info]
  · intro h1
    simp [decodeLoop, h1]
  · intro werr hp hs hcmd hw heof
    obtain ⟨ev0, action, hse⟩ := startEvent_of_updown cmd svc hcmd
    obtain ⟨evs, hd⟩ := decodeLoop_eof_of_accum svc e.stream [] v2 heof
    rw [executePlugin_wait_err e cmd svc ev0 action werr v2 evs hp hs hse hd hw]
    simp

theorem error_event_only_on_report_or_exit_witness :
    decodeLoop "db" [] [.ok ⟨"error", "fatal"⟩]
      = .fail "fatal" [.errorMessage "db" "error"] :=
  (error_event_only_on_report_or_exit execErrorMsg sampleProject "db" "up"
    [] [] ⟨"error", "fatal"⟩ []).2.2.2.2.2.2.2.1 rfl

/-- C9 counterexample: for a decoded `info` message the only event
carrying the payload in the trace is the error-kind event produced by
progress.ErrorMessageEvent, refuting the claim that an informational
(non-error) lifecycle event is emitted. -/
theorem info_event_is_error_kind :
    (executePlugin execInfoHello "up" "db").result = .ok [] ∧
    (executePlugin execInfoHello "up" "db").events
      = [.creating "db", .errorMessage "db" "hello", .created "db"] ∧
    (∀ ev ∈ (executePlugin execInfoHello "up" "db").events,
       ev.text = some "hello" → ev.isError = true) := by
  refine ⟨rfl, rfl, by decide⟩

/-- C9 amended: for every decoded message of kind `info` the loop emits
an event carrying the payload — but it is the error-kind lifecycle event
(the source calls progress.ErrorMessageEvent) — and continues with the
next message with the variable set unchanged, so the message affects
neither the outcome nor the result variable set. -/
theorem info_message_emits_error_kind_event (svc : String) (vars : Mapping)
    (m : JsonMessage) (rest : List StreamItem) (hm : m.type = InfoType) :
    decodeLoop svc vars (.ok m :: rest)
      = (decodeLoop svc vars rest).prependEvent (.errorMessage svc m.message) ∧
    (Event.errorMessage svc m.message).isError = true := by
  constructor
  · simp [decodeLoop, hm, info_ne_error]
  · rfl

theorem info_message_emits_error_kind_event_witness :
    decodeLoop "db" [] [.ok ⟨"info", "pulling image"⟩]
      = (decodeLoop "db" [] []).prependEvent (.errorMessage "db" "pulling image") ∧
    (Event.errorMessage "db" "pulling image").isError = true :=
  info_message_emits_error_kind_event "db" [] ⟨"info", "pulling image"⟩ [] rfl

/-- C10: two setenv messages with the same key do not fail the
invocation; the loop performs both map assignments and continues, and the
resulting variable set maps the key to the value of the later message. -/
theorem duplicate_setenv_overwrites (svc : String) (vars : Mapping)
    (k v1 v2 : String) (rest : List StreamItem) (hk : '=' ∉ k.data) :
    decodeLoop svc vars
        (.ok ⟨SetEnvType, k ++ "=" ++ v1⟩ :: .ok ⟨SetEnvType, k ++ "=" ++ v2⟩ :: rest)
      = decodeLoop svc (mapSet (mapSet vars k v1) k v2) rest ∧
    mapGet? (mapSet (mapSet vars k v1) k v2) k = some v2 := by
  have hc1 := cutString_of_split k v1 hk
  have hc2 := cutString_of_split k v2 hk
  constructor
  · rw [show decodeLoop svc vars
        (.ok ⟨SetEnvType, k ++ "=" ++ v1⟩ :: .ok ⟨SetEnvType, k ++ "=" ++ v2⟩ :: rest)
        = decodeLoop svc (mapSet vars k v1)
            (.ok ⟨SetEnvType, k ++ "=" ++ v2⟩ :: rest) from by
      simp [decodeLoop, setenv_ne_error, setenv_ne_info, hc1]]
    simp [decodeLoop, setenv_ne_error, setenv_ne_info, hc2]
  · exact mapGet_set_same (mapSet vars k v1) k v2

theorem duplicate_setenv_overwrites_witness :
    decodeLoop "db" []
        [.ok ⟨SetEnvType, "A" ++ "=" ++ "1"⟩, .ok ⟨SetEnvType, "A" ++ "=" ++ "2"⟩]
      = decodeLoop "db" (mapSet (mapSet [] "A" "1") "A" "2") [] ∧
    mapGet? (mapSet (mapSet [] "A" "1") "A" "2") "A" = some "2" :=
  duplicate_setenv_overwrites "db" [] "A" "1" "2" [] (by decide)
